import Mathlib

/-!
Shallow embedding of the URL-shortener service (FastAPI + SQLAlchemy).

Source files embedded here:
  - database.py : the `URL` and `Analytics` tables (the design `main.py` uses);
  - utils.py    : `generate_short_code`, `calculate_expiration_date`, `is_url_expired`;
  - schemas.py  : the `validate_custom_alias` pydantic validator;
  - main.py     : the endpoint handlers `shorten_url`, `redirect_url`,
                  `get_analytics`, `deactivate_url`.

Modelling conventions:
  - timestamps are natural numbers (seconds); `datetime.utcnow()` becomes an
    explicit `now : Nat` parameter; `timedelta(days=d)` becomes `d * 86400`;
  - a SQLAlchemy session is a `DB` record holding the two tables as lists in
    insertion order, plus the autoincrement counters;
  - `db.query(URL).filter(URL.short_code == c).first()` becomes
    `List.find?` on the urls list; mutation of the returned ORM object
    becomes replacement of the first matching list entry;
  - Python truthiness is made explicit: the `is_active` Integer column is
    truthy iff nonzero, an `Optional[str]` is truthy iff present and
    non-empty, an `Optional[int]` is truthy iff present and nonzero, and a
    present datetime is always truthy;
  - the `while True` generate-and-retry loop of `shorten_url` is embedded as
    a fuel-indexed search over a candidate stream `gen : Nat → String`
    standing for the successive outputs of `generate_short_code`; the fuel
    running out (`none`) means the loop has not exited within that many
    iterations, so the loop terminates iff some fuel suffices;
  - Python `str.isalnum` is embedded on its ASCII fragment, which covers
    every string handled in this development.
-/

namespace UrlShortener

/-- Row of the `urls` table (database.py, class URL): id, original_url,
short_code, created_at, expires_at, is_active (Integer, default 1). -/
structure URLRecord where
  id : Nat
  original_url : String
  short_code : String
  created_at : Nat
  expires_at : Option Nat
  is_active : Nat
deriving DecidableEq, Repr

/-- Row of the `analytics` table (database.py, class Analytics): id, url_id,
visited_at, user_agent, ip_address, referer. -/
structure AnalyticsRecord where
  id : Nat
  url_id : Nat
  visited_at : Nat
  user_agent : Option String
  ip_address : Option String
  referer : Option String
deriving DecidableEq, Repr

/-- The persistent store: both tables in insertion order plus the
autoincrement counters for the two integer primary keys. -/
structure DB where
  urls : List URLRecord
  analytics : List AnalyticsRecord
  nextUrlId : Nat
  nextAnalyticsId : Nat
deriving DecidableEq, Repr

/-- The store right after `init_db()` on a fresh file: empty tables. -/
def emptyDB : DB := ⟨[], [], 1, 1⟩

/-- Placeholder row used with `List.getD`; it is inactive, so out-of-range
positions never witness an active link. -/
def dummyURL : URLRecord := ⟨0, "", "", 0, none, 0⟩

/-- utils.py `is_url_expired(expires_at)`: `datetime.utcnow() > expires_at`.
The `None` short-circuit is handled at the call site in `redirect_url`
(`if url_entry.expires_at and is_url_expired(...)`), as in main.py. -/
def is_url_expired (now expires_at : Nat) : Bool :=
  now > expires_at

/-- utils.py `calculate_expiration_date(days)`: `utcnow() + timedelta(days=days)`. -/
def calculate_expiration_date (now days : Nat) : Nat :=
  now + days * 86400

/-- The inline check `if url_entry.expires_at and is_url_expired(url_entry.expires_at)`
from main.py redirect_url: a present datetime is truthy in Python. -/
def expiryTriggered (now : Nat) (expires_at : Option Nat) : Bool :=
  match expires_at with
  | none => false
  | some e => is_url_expired now e

/-- `db.query(URL).filter(URL.short_code == code).first()`. -/
def findByCode (db : DB) (code : String) : Option URLRecord :=
  db.urls.find? (fun u => u.short_code == code)

/-- Truth of `if existing:` after the query above. -/
def codeExists (db : DB) (code : String) : Bool :=
  (findByCode db code).isSome

/-- Mutation `url_entry.is_active = 0` on the object returned by
`.first()`: the first row matching the short code gets its flag cleared,
every other row is untouched. -/
def setInactiveFirst (code : String) : List URLRecord → List URLRecord
  | [] => []
  | r :: rs =>
    if r.short_code == code then { r with is_active := 0 } :: rs
    else r :: setInactiveFirst code rs

/-- Outcome of `GET /{short_code}` (main.py redirect_url): 404, 410 with a
detail string, or a 307 redirect to the stored destination. -/
inductive RedirectResult where
  | notFound
  | gone (detail : String)
  | redirect (url : String)
deriving DecidableEq, Repr

/-- main.py `redirect_url`: look the code up; 404 if absent; 410 if the
`is_active` column is falsy; if expired, persist `is_active = 0` and 410;
otherwise insert one Analytics row built from the request metadata and
redirect to `original_url`. -/
def redirect_url (code : String) (now : Nat)
    (userAgent ipAddress referer : Option String) (db : DB) :
    RedirectResult × DB :=
  match findByCode db code with
  | none => (.notFound, db)
  | some u =>
    if u.is_active == 0 then
      (.gone "This URL has been deactivated", db)
    else if expiryTriggered now u.expires_at then
      (.gone "This URL has expired", { db with urls := setInactiveFirst code db.urls })
    else
      (.redirect u.original_url,
       { db with
           analytics := db.analytics ++
             [⟨db.nextAnalyticsId, u.id, now, userAgent, ipAddress, referer⟩],
           nextAnalyticsId := db.nextAnalyticsId + 1 })

/-- Request body of `POST /shorten` with the fields main.py shorten_url
reads from it: `url_data.url`, `url_data.custom_code`,
`url_data.expires_in_days`. -/
structure ShortenInput where
  url : String
  custom_code : Option String
  expires_in_days : Option Nat
deriving DecidableEq, Repr

/-- Response model built by main.py shorten_url (`is_active` passes through
`bool(...)`). -/
structure URLResponse where
  id : Nat
  original_url : String
  short_code : String
  short_url : String
  created_at : Nat
  expires_at : Option Nat
  is_active : Bool
deriving DecidableEq, Repr

/-- Outcome of `POST /shorten`: 201 with the response model, or 400. -/
inductive ShortenResult where
  | created (resp : URLResponse)
  | badRequest (detail : String)
deriving DecidableEq, Repr

/-- The `while True: short_code = generate_short_code(); ...` loop of
main.py shorten_url, indexed by fuel: try `gen start`, `gen (start+1)`, ...
and return the first candidate no existing row carries; `none` means the
loop has not exited within `fuel` iterations. -/
def findFreeCodeAux (db : DB) (gen : Nat → String) : Nat → Nat → Option String
  | 0, _ => none
  | fuel + 1, i =>
    if codeExists db (gen i) then findFreeCodeAux db gen fuel (i + 1)
    else some (gen i)

/-- The retry loop started at the first candidate. -/
def findFreeCode (db : DB) (gen : Nat → String) (fuel : Nat) : Option String :=
  findFreeCodeAux db gen fuel 0

/-- `if url_data.expires_in_days:` — truthy iff present and nonzero; then
utils.calculate_expiration_date. -/
def expirationOf (now : Nat) : Option Nat → Option Nat
  | none => none
  | some d => if d = 0 then none else some (calculate_expiration_date now d)

/-- Shared tail of main.py shorten_url once the short code is settled:
insert the row (`is_active` defaults to 1, `created_at` to now), commit,
and build the `URLResponse` with the short URL assembled from the request
base. -/
def createAndRespond (dest code : String) (expires : Option Nat)
    (baseUrl : String) (now : Nat) (db : DB) : ShortenResult × DB :=
  let row : URLRecord := ⟨db.nextUrlId, dest, code, now, expires, 1⟩
  (.created
    ⟨row.id, row.original_url, row.short_code, baseUrl ++ "/" ++ code,
     row.created_at, row.expires_at, row.is_active != 0⟩,
   { db with urls := db.urls ++ [row], nextUrlId := db.nextUrlId + 1 })

/-- main.py `shorten_url`: with a truthy custom code, 400 if a row already
carries it, otherwise insert; with no custom code, run the
generate-and-retry loop. The outer `none` means the loop is still running
after `fuel` iterations (the Python loop has no cap). -/
def shorten_url (input : ShortenInput) (gen : Nat → String) (fuel : Nat)
    (baseUrl : String) (now : Nat) (db : DB) : Option (ShortenResult × DB) :=
  match input.custom_code with
  | some code =>
    if code.isEmpty then
      match findFreeCode db gen fuel with
      | none => none
      | some c =>
        some (createAndRespond input.url c
          (expirationOf now input.expires_in_days) baseUrl now db)
    else if codeExists db code then
      some (.badRequest "Custom short code already exists", db)
    else
      some (createAndRespond input.url code
        (expirationOf now input.expires_in_days) baseUrl now db)
  | none =>
    match findFreeCode db gen fuel with
    | none => none
    | some c =>
      some (createAndRespond input.url c
        (expirationOf now input.expires_in_days) baseUrl now db)

/-- Outcome of `DELETE /url/{short_code}`. -/
inductive DeactivateResult where
  | notFound
  | ok (message : String)
deriving DecidableEq, Repr

/-- main.py `deactivate_url`: 404 if the code is absent, otherwise clear
`is_active` on the found row and confirm. -/
def deactivate_url (code : String) (db : DB) : DeactivateResult × DB :=
  match findByCode db code with
  | none => (.notFound, db)
  | some _ =>
    (.ok ("URL " ++ code ++ " has been deactivated"),
     { db with urls := setInactiveFirst code db.urls })

/-- One entry of the analytics payload built by main.py get_analytics. -/
structure AnalyticsEntry where
  visited_at : Nat
  user_agent : Option String
  ip_address : Option String
  referer : Option String
deriving DecidableEq, Repr

/-- Payload of `GET /analytics/{short_code}`. -/
structure AnalyticsResponse where
  url_info : URLResponse
  total_clicks : Nat
  analytics : List AnalyticsEntry
deriving DecidableEq, Repr

/-- main.py `get_analytics`: 404 (`none`) if the code is absent; otherwise
fetch every Analytics row with this url id and return the count together
with the verbatim entries. Pure read, no state change. -/
def get_analytics (code : String) (baseUrl : String) (db : DB) :
    Option AnalyticsResponse :=
  match findByCode db code with
  | none => none
  | some u =>
    let entries := db.analytics.filter (fun a => a.url_id == u.id)
    some
      ⟨⟨u.id, u.original_url, u.short_code, baseUrl ++ "/" ++ code,
        u.created_at, u.expires_at, u.is_active != 0⟩,
       entries.length,
       entries.map (fun a => ⟨a.visited_at, a.user_agent, a.ip_address, a.referer⟩)⟩

/-- ASCII fragment of Python `str.isalnum` at the character level. -/
def pyAlnumChar (c : Char) : Bool :=
  c.isAlpha || c.isDigit

/-- Python `str.isalnum`: true iff the string is non-empty and every
character is alphanumeric. -/
def pyIsalnum (s : String) : Bool :=
  !s.toList.isEmpty && s.toList.all pyAlnumChar

/-- The chained `v.replace('-', '').replace('_', '')` of schemas.py:
removal of every hyphen and every underscore. -/
def pyStripDashUnderscore (s : String) : String :=
  ⟨s.toList.filter (fun c => !(c == '-' || c == '_'))⟩

/-- Python `str.lower` on its ASCII fragment: lowercase every character. -/
def pyLower (s : String) : String :=
  ⟨s.toList.map Char.toLower⟩

/-- Reserved-word list of schemas.py validate_custom_alias. -/
def reservedAliases : List String :=
  ["shorten", "stats", "qr", "urls", "health", "docs", "redoc", "openapi.json"]

/-- schemas.py `validate_custom_alias` as an accept/reject predicate: a
falsy (empty) alias is passed through; otherwise the alias with hyphens and
underscores removed must satisfy `isalnum`, and the lowercased alias must
not be reserved; a `ValueError` is `false` here. -/
def validate_custom_alias (v : String) : Bool :=
  if !v.isEmpty then
    if !pyIsalnum (pyStripDashUnderscore v) then false
    else if reservedAliases.contains (pyLower v) then false
    else true
  else true

/-- The composite alias validation seen by a request: the pydantic
`Field(max_length=50)` bound on `custom_alias` together with the
`validate_custom_alias` validator. -/
def acceptAlias (v : String) : Bool :=
  decide (v.length ≤ 50) && validate_custom_alias v

/-- Character set the claim (and spec §4.2) names for aliases: letters,
digits, hyphens, underscores. -/
def claimAliasChar (c : Char) : Bool :=
  c.isAlpha || c.isDigit || c == '-' || c == '_'

/-- Modelled from the spec: `is_valid_destination` (spec §4.2). No such
validator exists in the source; this definition follows the spec words —
scheme `http` or `https`, a host that is a dotted-quad address, `localhost`,
or dot-separated domain labels (letters/digits/hyphens, not at the edges),
an optional numeric port, an optional path/query — and is used only to
exhibit destinations the spec rejects. -/
def hostLabelOk (l : List Char) : Bool :=
  !l.isEmpty && l.all (fun c => c.isAlpha || c.isDigit || c == '-') &&
    !(l.headD ' ' == '-') && !(l.getLastD ' ' == '-')

/-- Modelled from the spec: dotted-quad address part of `is_valid_destination`. -/
def dottedQuadOk (parts : List (List Char)) : Bool :=
  parts.length == 4 &&
    parts.all (fun p => !p.isEmpty && p.all Char.isDigit && p.length ≤ 3)

/-- Modelled from the spec: host rule of `is_valid_destination` (domain
labels, `localhost`, or dotted-quad). -/
def specHostOk (host : List Char) : Bool :=
  let parts := (List.splitOn '.' host)
  host == "localhost".toList || dottedQuadOk parts || parts.all hostLabelOk

/-- Modelled from the spec: scheme rule of `is_valid_destination` — the URL
must start with `http://` or `https://`; the remainder is returned. -/
def stripScheme : List Char → Option (List Char)
  | 'h' :: 't' :: 't' :: 'p' :: ':' :: '/' :: '/' :: rest => some rest
  | 'h' :: 't' :: 't' :: 'p' :: 's' :: ':' :: '/' :: '/' :: rest => some rest
  | _ => none

/-- Modelled from the spec: `is_valid_destination(url)` (spec §4.2). -/
def is_valid_destination (u : String) : Bool :=
  match stripScheme u.toList with
  | none => false
  | some rest =>
    let hostPort := rest.takeWhile (fun c => !(c == '/' || c == '?'))
    let host := hostPort.takeWhile (fun c => !(c == ':'))
    let port := (hostPort.dropWhile (fun c => !(c == ':'))).drop 1
    specHostOk host &&
      (hostPort.all (fun c => !(c == ':')) || (!port.isEmpty && port.all Char.isDigit))

/-- Modelled from the spec: the `referrers` aggregation of `get_stats`
(spec §4.6) — occurrence counts keyed by referrer string, with the literal
placeholder "Direct" when the referrer is absent. No such aggregation
exists in the source; this definition follows the spec words and is only
compared against what `get_analytics` returns. -/
def referrerKey : Option String → String
  | none => "Direct"
  | some r => r

/-- Modelled from the spec: occurrence count of one referrer key among the
visit records of a link. -/
def referrerCount (entries : List AnalyticsRecord) (key : String) : Nat :=
  (entries.filter (fun a => referrerKey a.referer == key)).length

/-- Sample store: one active, never-expiring link. -/
def dbOne : DB := ⟨[⟨1, "http://example.com", "abc", 0, none, 1⟩], [], 2, 2⟩

/-- Sample store: one active link whose expiration lies in the past at time 5. -/
def dbExpired : DB := ⟨[⟨1, "http://example.com", "abc", 0, some 3, 1⟩], [], 2, 2⟩

/-- Sample store: one deactivated link. -/
def dbInactive : DB := ⟨[⟨1, "http://example.com", "abc", 0, none, 0⟩], [], 2, 2⟩

/-- Sample store whose single link carries the only code a constant
generator ever proposes: every retry of the generation loop collides. -/
def dbSat : DB := ⟨[⟨1, "http://example.com", "aaaaaa", 0, none, 1⟩], [], 2, 1⟩

/-- Sample store: one link with one recorded visit whose referrer is absent. -/
def dbVisited : DB :=
  ⟨[⟨1, "http://example.com", "abc", 0, none, 1⟩], [⟨1, 1, 5, none, none, none⟩], 2, 2⟩

/-- Uniqueness invariant of the `urls` table: no two rows carry the same
short code (the `unique=True` constraint on the column). -/
def Uniq (db : DB) : Prop :=
  (db.urls.map (fun r => r.short_code)).Nodup

/-- States reachable from a fresh store through the service endpoints.
`get_analytics` is a pure read and produces no new state. A `shorten_url`
step requires the generation loop to have exited (`some`). -/
inductive Reachable : DB → Prop where
  | empty : Reachable emptyDB
  | shorten {db inp gen fuel base now out} : Reachable db →
      shorten_url inp gen fuel base now db = some out → Reachable out.2
  | redirect {db code now ua ip ref} : Reachable db →
      Reachable (redirect_url code now ua ip ref db).2
  | deactivate {db code} : Reachable db →
      Reachable (deactivate_url code db).2

/-! ## Lemmas about the embedded operations -/

theorem codeExists_false_iff {db : DB} {code : String} :
    codeExists db code = false ↔ ∀ r ∈ db.urls, r.short_code ≠ code := by
  unfold codeExists findByCode
  constructor
  · intro h r hr
    cases hf : db.urls.find? (fun u => u.short_code == code) with
    | none =>
      have := List.find?_eq_none.mp hf r hr
      simpa using this
    | some u => rw [hf] at h; simp at h
  · intro h
    have hn : db.urls.find? (fun u => u.short_code == code) = none :=
      List.find?_eq_none.mpr (fun x hx => by simpa using h x hx)
    rw [hn]; rfl

theorem findByCode_append_fresh {db : DB} {code : String} (row : URLRecord)
    (h : codeExists db code = false) (hc : row.short_code = code) :
    (db.urls ++ [row]).find? (fun u => u.short_code == code) = some row := by
  have hn : db.urls.find? (fun u => u.short_code == code) = none := by
    cases hf : db.urls.find? (fun u => u.short_code == code) with
    | none => rfl
    | some u => unfold codeExists findByCode at h; rw [hf] at h; simp at h
  rw [List.find?_append, hn, Option.none_or]
  exact List.find?_cons_of_pos _ (by simp [hc])

theorem setInactiveFirst_getD (code : String) (l : List URLRecord) (i : Nat) :
    (setInactiveFirst code l).getD i dummyURL = l.getD i dummyURL ∨
      (l.find? (fun r => r.short_code == code) = some (l.getD i dummyURL) ∧
        (setInactiveFirst code l).getD i dummyURL =
          { l.getD i dummyURL with is_active := 0 }) := by
  induction l generalizing i with
  | nil => left; rfl
  | cons r rs ih =>
    cases hm : r.short_code == code with
    | true =>
      have hl : setInactiveFirst code (r :: rs) = { r with is_active := 0 } :: rs := by
        simp [setInactiveFirst, hm]
      cases i with
      | zero =>
        right
        refine ⟨List.find?_cons_of_pos _ hm, ?_⟩
        rw [hl, List.getD_cons_zero, List.getD_cons_zero]
      | succ n =>
        left
        rw [hl, List.getD_cons_succ, List.getD_cons_succ]
    | false =>
      have hl : setInactiveFirst code (r :: rs) = r :: setInactiveFirst code rs := by
        simp [setInactiveFirst, hm]
      cases i with
      | zero =>
        left
        rw [hl, List.getD_cons_zero, List.getD_cons_zero]
      | succ n =>
        rcases ih n with h | ⟨h1, h2⟩
        · left
          rw [hl, List.getD_cons_succ, List.getD_cons_succ]
          exact h
        · right
          refine ⟨?_, ?_⟩
          · rw [List.find?_cons_of_neg _ (by simp [hm]), List.getD_cons_succ]
            exact h1
          · rw [hl, List.getD_cons_succ, List.getD_cons_succ]
            exact h2

theorem setInactiveFirst_inactive {code : String} {l : List URLRecord} {i : Nat}
    (h : (l.getD i dummyURL).is_active = 0) :
    ((setInactiveFirst code l).getD i dummyURL).is_active = 0 := by
  rcases setInactiveFirst_getD code l i with h1 | ⟨_, h2⟩
  · rw [h1]; exact h
  · rw [h2]

theorem setInactiveFirst_map_code (code : String) (l : List URLRecord) :
    (setInactiveFirst code l).map (fun r => r.short_code) =
      l.map (fun r => r.short_code) := by
  induction l with
  | nil => rfl
  | cons r rs ih =>
    cases hm : r.short_code == code with
    | true => simp [setInactiveFirst, hm]
    | false => simp [setInactiveFirst, hm, ih]

theorem setInactiveFirst_idem (code : String) (l : List URLRecord) :
    setInactiveFirst code (setInactiveFirst code l) = setInactiveFirst code l := by
  induction l with
  | nil => rfl
  | cons r rs ih =>
    cases hm : r.short_code == code with
    | true => simp [setInactiveFirst, hm]
    | false => simp [setInactiveFirst, hm, ih]

theorem find?_setInactiveFirst_isSome (code : String) (l : List URLRecord) :
    ((setInactiveFirst code l).find? (fun r => r.short_code == code)).isSome =
      (l.find? (fun r => r.short_code == code)).isSome := by
  induction l with
  | nil => rfl
  | cons r rs ih =>
    cases hm : r.short_code == code with
    | true =>
      have hl : setInactiveFirst code (r :: rs) = { r with is_active := 0 } :: rs := by
        simp [setInactiveFirst, hm]
      rw [hl]
      simp [List.find?_cons, hm]
    | false =>
      have hl : setInactiveFirst code (r :: rs) = r :: setInactiveFirst code rs := by
        simp [setInactiveFirst, hm]
      rw [hl]
      simp [List.find?_cons, hm]
      exact ih

theorem redirect_url_urls (code : String) (now : Nat)
    (ua ip ref : Option String) (db : DB) :
    ((redirect_url code now ua ip ref db).2).urls = db.urls ∨
      ((redirect_url code now ua ip ref db).2).urls = setInactiveFirst code db.urls := by
  unfold redirect_url
  cases findByCode db code with
  | none => exact Or.inl rfl
  | some u =>
    dsimp only
    split
    · exact Or.inl rfl
    · split
      · exact Or.inr rfl
      · exact Or.inl rfl

theorem redirect_url_analytics_mono (code : String) (now : Nat)
    (ua ip ref : Option String) (db : DB) :
    ((redirect_url code now ua ip ref db).2).analytics = db.analytics ∨
      ∃ a, ((redirect_url code now ua ip ref db).2).analytics = db.analytics ++ [a] := by
  unfold redirect_url
  cases findByCode db code with
  | none => exact Or.inl rfl
  | some u =>
    dsimp only
    split
    · exact Or.inl rfl
    · split
      · exact Or.inl rfl
      · exact Or.inr ⟨_, rfl⟩

theorem deactivate_url_urls (code : String) (db : DB) :
    ((deactivate_url code db).2).urls = db.urls ∨
      ((deactivate_url code db).2).urls = setInactiveFirst code db.urls := by
  unfold deactivate_url
  cases findByCode db code with
  | none => exact Or.inl rfl
  | some u => exact Or.inr rfl

theorem findFreeCodeAux_some {db : DB} {gen : Nat → String} :
    ∀ {fuel i c}, findFreeCodeAux db gen fuel i = some c →
      codeExists db c = false ∧ ∃ j, c = gen j := by
  intro fuel
  induction fuel with
  | zero =>
    intro i c h
    exact absurd h (by simp [findFreeCodeAux])
  | succ n ih =>
    intro i c h
    unfold findFreeCodeAux at h
    by_cases hx : codeExists db (gen i) = true
    · rw [if_pos hx] at h
      exact ih h
    · rw [if_neg hx] at h
      injection h with h
      subst h
      exact ⟨by simpa using hx, ⟨i, rfl⟩⟩

theorem findFreeCode_some {db : DB} {gen : Nat → String} {fuel : Nat} {c : String}
    (h : findFreeCode db gen fuel = some c) :
    codeExists db c = false ∧ ∃ j, c = gen j :=
  findFreeCodeAux_some h

theorem findFreeCodeAux_of_free {db : DB} {gen : Nat → String} :
    ∀ (j i : Nat), codeExists db (gen (i + j)) = false →
      ∃ c, findFreeCodeAux db gen (j + 1) i = some c ∧ codeExists db c = false := by
  intro j
  induction j with
  | zero =>
    intro i h
    rw [Nat.add_zero] at h
    refine ⟨gen i, ?_, h⟩
    unfold findFreeCodeAux
    rw [if_neg (by simp [h])]
  | succ n ih =>
    intro i h
    by_cases hx : codeExists db (gen i) = true
    · obtain ⟨c, hc, hfree⟩ := ih (i + 1) (by rw [Nat.add_right_comm]; exact h)
      refine ⟨c, ?_, hfree⟩
      unfold findFreeCodeAux
      rw [if_pos hx]
      exact hc
    · refine ⟨gen i, ?_, by simpa using hx⟩
      unfold findFreeCodeAux
      rw [if_neg hx]

theorem findFreeCode_of_free {db : DB} {gen : Nat → String} {n : Nat}
    (h : codeExists db (gen n) = false) :
    ∃ fuel c, findFreeCode db gen fuel = some c ∧ codeExists db c = false := by
  obtain ⟨c, hc, hfree⟩ := findFreeCodeAux_of_free n 0 (by simpa using h)
  exact ⟨n + 1, c, hc, hfree⟩

theorem shorten_url_inv {inp : ShortenInput} {gen : Nat → String} {fuel : Nat}
    {base : String} {now : Nat} {db : DB} {out : ShortenResult × DB}
    (h : shorten_url inp gen fuel base now db = some out) :
    (out = (.badRequest "Custom short code already exists", db) ∧
      ∃ code, inp.custom_code = some code ∧ code.isEmpty = false ∧
        codeExists db code = true) ∨
    (∃ code, codeExists db code = false ∧
      out = createAndRespond inp.url code
        (expirationOf now inp.expires_in_days) base now db) := by
  unfold shorten_url at h
  cases hc : inp.custom_code with
  | none =>
    rw [hc] at h
    dsimp only at h
    cases hg : findFreeCode db gen fuel with
    | none => rw [hg] at h; exact absurd h (by simp)
    | some c =>
      rw [hg] at h
      injection h with h
      exact Or.inr ⟨c, (findFreeCode_some hg).1, h.symm⟩
  | some code =>
    rw [hc] at h
    dsimp only at h
    by_cases he : code.isEmpty = true
    · rw [if_pos he] at h
      cases hg : findFreeCode db gen fuel with
      | none => rw [hg] at h; exact absurd h (by simp)
      | some c =>
        rw [hg] at h
        injection h with h
        exact Or.inr ⟨c, (findFreeCode_some hg).1, h.symm⟩
    · rw [if_neg he] at h
      by_cases hx : codeExists db code = true
      · rw [if_pos hx] at h
        injection h with h
        exact Or.inl ⟨h.symm, code, rfl, by simpa using he, hx⟩
      · rw [if_neg hx] at h
        injection h with h
        exact Or.inr ⟨code, by simpa using hx, h.symm⟩

theorem shorten_url_urls {inp : ShortenInput} {gen : Nat → String} {fuel : Nat}
    {base : String} {now : Nat} {db : DB} {out : ShortenResult × DB}
    (h : shorten_url inp gen fuel base now db = some out) :
    out.2.urls = db.urls ∨
      ∃ row, codeExists db row.short_code = false ∧ out.2.urls = db.urls ++ [row] := by
  rcases shorten_url_inv h with ⟨hout, _⟩ | ⟨code, hfree, hout⟩
  · left; rw [hout]
  · right
    exact ⟨⟨db.nextUrlId, inp.url, code, now,
      expirationOf now inp.expires_in_days, 1⟩, hfree, by rw [hout]; rfl⟩

theorem redirect_url_notFound {code : String} {now : Nat}
    {ua ip ref : Option String} {db : DB} (h : findByCode db code = none) :
    redirect_url code now ua ip ref db = (.notFound, db) := by
  unfold redirect_url
  rw [h]

theorem redirect_url_deactivated {code : String} {now : Nat}
    {ua ip ref : Option String} {db : DB} {u : URLRecord}
    (h : findByCode db code = some u) (ha : u.is_active = 0) :
    redirect_url code now ua ip ref db = (.gone "This URL has been deactivated", db) := by
  unfold redirect_url
  rw [h]
  dsimp only
  rw [if_pos (by simp [ha])]

theorem redirect_url_expired {code : String} {now : Nat}
    {ua ip ref : Option String} {db : DB} {u : URLRecord}
    (h : findByCode db code = some u) (ha : u.is_active ≠ 0)
    (he : expiryTriggered now u.expires_at = true) :
    redirect_url code now ua ip ref db =
      (.gone "This URL has expired", { db with urls := setInactiveFirst code db.urls }) := by
  unfold redirect_url
  rw [h]
  dsimp only
  rw [if_neg (by simp [ha]), if_pos he]

theorem redirect_url_success {code : String} {now : Nat}
    {ua ip ref : Option String} {db : DB} {u : URLRecord}
    (h : findByCode db code = some u) (ha : u.is_active ≠ 0)
    (he : expiryTriggered now u.expires_at = false) :
    redirect_url code now ua ip ref db =
      (.redirect u.original_url,
       { db with
           analytics := db.analytics ++
             [⟨db.nextAnalyticsId, u.id, now, ua, ip, ref⟩],
           nextAnalyticsId := db.nextAnalyticsId + 1 }) := by
  unfold redirect_url
  rw [h]
  dsimp only
  rw [if_neg (by simp [ha]), if_neg (by simp [he])]

theorem redirect_url_redirect_inv {code : String} {now : Nat}
    {ua ip ref : Option String} {db : DB} {dest : String} {db2 : DB}
    (h : redirect_url code now ua ip ref db = (.redirect dest, db2)) :
    ∃ u, findByCode db code = some u ∧ u.is_active ≠ 0 ∧
      expiryTriggered now u.expires_at = false ∧ dest = u.original_url ∧
      db2 = { db with
                analytics := db.analytics ++
                  [⟨db.nextAnalyticsId, u.id, now, ua, ip, ref⟩],
                nextAnalyticsId := db.nextAnalyticsId + 1 } := by
  cases hf : findByCode db code with
  | none =>
    rw [redirect_url_notFound hf] at h
    simp at h
  | some u =>
    by_cases ha : u.is_active = 0
    · rw [redirect_url_deactivated hf ha] at h
      simp at h
    · by_cases he : expiryTriggered now u.expires_at = true
      · rw [redirect_url_expired hf ha he] at h
        simp at h
      · rw [redirect_url_success hf ha (by simpa using he)] at h
        rw [Prod.mk.injEq] at h
        obtain ⟨h1, h2⟩ := h
        rw [RedirectResult.redirect.injEq] at h1
        exact ⟨u, rfl, ha, by simpa using he, h1.symm, h2.symm⟩

theorem redirect_preserves_inactive (code : String) (now : Nat)
    (ua ip ref : Option String) (db : DB) (i : Nat)
    (h : (db.urls.getD i dummyURL).is_active = 0) :
    (((redirect_url code now ua ip ref db).2).urls.getD i dummyURL).is_active = 0 := by
  rcases redirect_url_urls code now ua ip ref db with hu | hu
  · rw [hu]; exact h
  · rw [hu]; exact setInactiveFirst_inactive h

theorem deactivate_preserves_inactive (code : String) (db : DB) (i : Nat)
    (h : (db.urls.getD i dummyURL).is_active = 0) :
    (((deactivate_url code db).2).urls.getD i dummyURL).is_active = 0 := by
  rcases deactivate_url_urls code db with hu | hu
  · rw [hu]; exact h
  · rw [hu]; exact setInactiveFirst_inactive h

theorem shorten_preserves_rows {inp : ShortenInput} {gen : Nat → String}
    {fuel : Nat} {base : String} {now : Nat} {db : DB} {out : ShortenResult × DB}
    (h : shorten_url inp gen fuel base now db = some out) (i : Nat)
    (hi : i < db.urls.length) :
    out.2.urls.getD i dummyURL = db.urls.getD i dummyURL := by
  rcases shorten_url_urls h with hu | ⟨row, _, hu⟩
  · rw [hu]
  · rw [hu]
    exact List.getD_append _ _ _ _ hi

theorem redirect_deactivation_only_on_expiry (code : String) (now : Nat)
    (ua ip ref : Option String) (db : DB) (i : Nat)
    (hpre : (db.urls.getD i dummyURL).is_active ≠ 0)
    (hpost : (((redirect_url code now ua ip ref db).2).urls.getD i dummyURL).is_active = 0) :
    ∃ e, (db.urls.getD i dummyURL).expires_at = some e ∧ now > e := by
  cases hf : findByCode db code with
  | none =>
    rw [redirect_url_notFound hf] at hpost
    exact absurd hpost hpre
  | some u =>
    by_cases ha : u.is_active = 0
    · rw [redirect_url_deactivated hf ha] at hpost
      exact absurd hpost hpre
    · by_cases he : expiryTriggered now u.expires_at = true
      · rw [redirect_url_expired hf ha he] at hpost
        rcases setInactiveFirst_getD code db.urls i with h1 | ⟨h2, _⟩
        · rw [show (((.gone "This URL has expired",
              { db with urls := setInactiveFirst code db.urls }) :
              RedirectResult × DB).2).urls = setInactiveFirst code db.urls from rfl,
            h1] at hpost
          exact absurd hpost hpre
        · have hu : db.urls.getD i dummyURL = u := by
            unfold findByCode at hf
            rw [h2] at hf
            injection hf
          rw [hu]
          cases hex : u.expires_at with
          | none => rw [hex] at he; simp [expiryTriggered] at he
          | some e =>
            refine ⟨e, rfl, ?_⟩
            rw [hex] at he
            simpa [expiryTriggered, is_url_expired] using he
      · rw [redirect_url_success hf ha (by simpa using he)] at hpost
        exact absurd hpost hpre

theorem deactivate_url_idem (code : String) (db : DB) :
    deactivate_url code (deactivate_url code db).2 = deactivate_url code db := by
  cases hf : findByCode db code with
  | none =>
    have h1 : deactivate_url code db = (.notFound, db) := by
      unfold deactivate_url; rw [hf]
    rw [h1]
    exact h1
  | some u =>
    have h1 : deactivate_url code db =
        (.ok ("URL " ++ code ++ " has been deactivated"),
         { db with urls := setInactiveFirst code db.urls }) := by
      unfold deactivate_url; rw [hf]
    rw [h1]
    have hs : ((setInactiveFirst code db.urls).find?
        (fun r => r.short_code == code)).isSome = true := by
      rw [find?_setInactiveFirst_isSome]
      unfold findByCode at hf
      rw [hf]
      rfl
    cases hf2 : (setInactiveFirst code db.urls).find? (fun r => r.short_code == code) with
    | none => rw [hf2] at hs; simp at hs
    | some u2 =>
      show deactivate_url code { db with urls := setInactiveFirst code db.urls } = _
      unfold deactivate_url findByCode
      dsimp only
      rw [hf2, setInactiveFirst_idem]

theorem deactivate_url_found (code : String) (db : DB) (u : URLRecord)
    (hf : findByCode db code = some u) :
    deactivate_url code db =
      (.ok ("URL " ++ code ++ " has been deactivated"),
       { db with urls := setInactiveFirst code db.urls }) := by
  unfold deactivate_url
  rw [hf]

theorem uniq_append {db : DB} {row : URLRecord}
    (hu : Uniq db) (h : codeExists db row.short_code = false) :
    ((db.urls ++ [row]).map (fun r => r.short_code)).Nodup := by
  rw [List.map_append, List.nodup_append]
  refine ⟨hu, List.nodup_singleton _, ?_⟩
  intro a ha hb
  simp only [List.map_cons, List.map_nil, List.mem_singleton] at hb
  subst hb
  rw [List.mem_map] at ha
  obtain ⟨r, hr, hcode⟩ := ha
  exact (codeExists_false_iff.mp h r hr) hcode

theorem reachable_uniq {db : DB} (h : Reachable db) : Uniq db := by
  induction h with
  | empty => simp [Uniq, emptyDB]
  | shorten hre hs ih =>
    rcases shorten_url_urls hs with hu | ⟨row, hfree, hu⟩
    · unfold Uniq; rw [hu]; exact ih
    · unfold Uniq; rw [hu]; exact uniq_append ih hfree
  | redirect hre ih =>
    unfold Uniq
    rcases redirect_url_urls _ _ _ _ _ _ with hu | hu
    · rw [hu]; exact ih
    · rw [hu, setInactiveFirst_map_code]; exact ih
  | deactivate hre ih =>
    unfold Uniq
    rcases deactivate_url_urls _ _ with hu | hu
    · rw [hu]; exact ih
    · rw [hu, setInactiveFirst_map_code]; exact ih

/-! ## Claims -/

/-- Claim C1: for every short code and request metadata, the redirect
endpoint fails NotFound when no link with that code exists; fails Gone when
the link exists but is not active, leaving the store unchanged so that no
visit is recorded; and otherwise, when the link is active and not expired,
records exactly one visit row carrying the supplied user agent, client
address and referrer, and returns the stored original_url. -/
theorem redirect_resolves_and_tracks (code : String) (now : Nat)
    (ua ip ref : Option String) (db : DB) :
    (findByCode db code = none →
      redirect_url code now ua ip ref db = (.notFound, db)) ∧
    (∀ u, findByCode db code = some u → u.is_active = 0 →
      redirect_url code now ua ip ref db =
        (.gone "This URL has been deactivated", db)) ∧
    (∀ u, findByCode db code = some u → u.is_active ≠ 0 →
      expiryTriggered now u.expires_at = false →
      redirect_url code now ua ip ref db =
        (.redirect u.original_url,
         { db with
             analytics := db.analytics ++
               [⟨db.nextAnalyticsId, u.id, now, ua, ip, ref⟩],
             nextAnalyticsId := db.nextAnalyticsId + 1 })) :=
  ⟨fun h => redirect_url_notFound h,
   fun _ h ha => redirect_url_deactivated h ha,
   fun _ h ha he => redirect_url_success h ha he⟩

/-- Witness for claim C1: the success branch evaluated on a store with one
active link. -/
theorem redirect_resolves_and_tracks_witness :
    redirect_url "abc" 5 (some "UA") (some "1.2.3.4") (some "r.com") dbOne =
      (.redirect "http://example.com",
       ⟨[⟨1, "http://example.com", "abc", 0, none, 1⟩],
        [⟨2, 1, 5, some "UA", some "1.2.3.4", some "r.com"⟩], 2, 3⟩) :=
  (redirect_resolves_and_tracks "abc" 5 (some "UA") (some "1.2.3.4")
      (some "r.com") dbOne).2.2
    ⟨1, "http://example.com", "abc", 0, none, 1⟩ (by decide) (by decide) (by decide)

/-- Claim C2: for a link whose expiration is set and in the past, the first
resolution (the link still active) fails Gone, persists the cleared active
flag, and leaves the analytics table unchanged, so zero visits are recorded
for that call; the link then stays inactive under every operation (redirect,
deactivate, and shorten, which leaves existing rows untouched); and the
expiration check is the only implicit deactivation path: whenever a
redirect turns an active row inactive, that row had an expiration set and
in the past. -/
theorem expired_link_first_resolution :
    (∀ db code now ua ip ref u e, findByCode db code = some u →
      u.is_active ≠ 0 → u.expires_at = some e → now > e →
      redirect_url code now ua ip ref db =
        (.gone "This URL has expired",
         { db with urls := setInactiveFirst code db.urls })) ∧
    (∀ code now ua ip ref db i, (db.urls.getD i dummyURL).is_active = 0 →
      (((redirect_url code now ua ip ref db).2).urls.getD i dummyURL).is_active = 0) ∧
    (∀ code db i, (db.urls.getD i dummyURL).is_active = 0 →
      (((deactivate_url code db).2).urls.getD i dummyURL).is_active = 0) ∧
    (∀ inp gen fuel base now db out i,
      shorten_url inp gen fuel base now db = some out → i < db.urls.length →
      out.2.urls.getD i dummyURL = db.urls.getD i dummyURL) ∧
    (∀ code now ua ip ref db i, (db.urls.getD i dummyURL).is_active ≠ 0 →
      (((redirect_url code now ua ip ref db).2).urls.getD i dummyURL).is_active = 0 →
      ∃ e, (db.urls.getD i dummyURL).expires_at = some e ∧ now > e) :=
  ⟨fun db code now ua ip ref u e hf ha hex hlt =>
      redirect_url_expired hf ha (by rw [hex]; simpa [expiryTriggered, is_url_expired] using hlt),
   fun code now ua ip ref db i h => redirect_preserves_inactive code now ua ip ref db i h,
   fun code db i h => deactivate_preserves_inactive code db i h,
   fun _ _ _ _ _ _ _ i h hi => shorten_preserves_rows h i hi,
   fun code now ua ip ref db i hpre hpost =>
      redirect_deactivation_only_on_expiry code now ua ip ref db i hpre hpost⟩

/-- Witness for claim C2: the expired branch evaluated on a store whose
single link expired at time 3, resolved at time 5. -/
theorem expired_link_first_resolution_witness :
    redirect_url "abc" 5 none none none dbExpired =
      (.gone "This URL has expired",
       { dbExpired with urls := setInactiveFirst "abc" dbExpired.urls }) :=
  expired_link_first_resolution.1 dbExpired "abc" 5 none none none
    ⟨1, "http://example.com", "abc", 0, some 3, 1⟩ 3 (by decide) (by decide) (by decide)
    (by decide)

/-- Claim C7: deactivation is idempotent (running the delete endpoint a
second time returns the same confirmation and the same state, in particular
it succeeds on an already-deactivated link) and one-way: an inactive row
stays inactive under redirect and deactivate, and shorten leaves every
existing row untouched; no operation sets the flag back. -/
theorem deactivation_one_way_idempotent :
    (∀ code db, deactivate_url code (deactivate_url code db).2 = deactivate_url code db) ∧
    (∀ code db u, findByCode db code = some u →
      (deactivate_url code db).1 = .ok ("URL " ++ code ++ " has been deactivated")) ∧
    (∀ code now ua ip ref db i, (db.urls.getD i dummyURL).is_active = 0 →
      (((redirect_url code now ua ip ref db).2).urls.getD i dummyURL).is_active = 0) ∧
    (∀ code db i, (db.urls.getD i dummyURL).is_active = 0 →
      (((deactivate_url code db).2).urls.getD i dummyURL).is_active = 0) ∧
    (∀ inp gen fuel base now db out i,
      shorten_url inp gen fuel base now db = some out → i < db.urls.length →
      out.2.urls.getD i dummyURL = db.urls.getD i dummyURL) :=
  ⟨fun code db => deactivate_url_idem code db,
   fun code db u hf => by rw [deactivate_url_found code db u hf],
   fun code now ua ip ref db i h => redirect_preserves_inactive code now ua ip ref db i h,
   fun code db i h => deactivate_preserves_inactive code db i h,
   fun _ _ _ _ _ _ _ i h hi => shorten_preserves_rows h i hi⟩

/-- Witness for claim C7: deactivating an already-deactivated link succeeds
and keeps the row inactive. -/
theorem deactivation_one_way_idempotent_witness :
    (deactivate_url "abc" dbInactive).1 = .ok "URL abc has been deactivated" ∧
    (((deactivate_url "abc" dbInactive).2).urls.getD 0 dummyURL).is_active = 0 :=
  ⟨deactivation_one_way_idempotent.2.1 "abc" dbInactive
      ⟨1, "http://example.com", "abc", 0, none, 0⟩ (by decide),
   deactivation_one_way_idempotent.2.2.2.1 "abc" dbInactive 0 (by decide)⟩

/-- Claim C10: on a successful redirect every field of the resolved link
and of every other link row is left unchanged (the whole urls table and its
id counter are untouched), and the only state change is the append of
exactly one visit row owned by the resolved link. -/
theorem redirect_success_frame (code : String) (now : Nat)
    (ua ip ref : Option String) (db : DB) (dest : String) (db2 : DB)
    (h : redirect_url code now ua ip ref db = (.redirect dest, db2)) :
    ∃ u, findByCode db code = some u ∧ dest = u.original_url ∧
      db2.urls = db.urls ∧ db2.nextUrlId = db.nextUrlId ∧
      db2.analytics = db.analytics ++
        [⟨db.nextAnalyticsId, u.id, now, ua, ip, ref⟩] ∧
      db2.nextAnalyticsId = db.nextAnalyticsId + 1 := by
  obtain ⟨u, hf, _, _, hdest, hdb⟩ := redirect_url_redirect_inv h
  exact ⟨u, hf, hdest, by rw [hdb], by rw [hdb], by rw [hdb], by rw [hdb]⟩

/-- Witness for claim C10 on a store with one active link and an empty
analytics table. -/
theorem redirect_success_frame_witness :
    ∃ u, findByCode dbOne "abc" = some u ∧ "http://example.com" = u.original_url ∧
      (⟨[⟨1, "http://example.com", "abc", 0, none, 1⟩],
        [⟨2, 1, 7, none, none, some "a.com"⟩], 2, 3⟩ : DB).urls = dbOne.urls ∧
      (⟨[⟨1, "http://example.com", "abc", 0, none, 1⟩],
        [⟨2, 1, 7, none, none, some "a.com"⟩], 2, 3⟩ : DB).nextUrlId = dbOne.nextUrlId ∧
      (⟨[⟨1, "http://example.com", "abc", 0, none, 1⟩],
        [⟨2, 1, 7, none, none, some "a.com"⟩], 2, 3⟩ : DB).analytics =
        dbOne.analytics ++ [⟨dbOne.nextAnalyticsId, u.id, 7, none, none, some "a.com"⟩] ∧
      (⟨[⟨1, "http://example.com", "abc", 0, none, 1⟩],
        [⟨2, 1, 7, none, none, some "a.com"⟩], 2, 3⟩ : DB).nextAnalyticsId =
        dbOne.nextAnalyticsId + 1 :=
  redirect_success_frame "abc" 7 none none (some "a.com") dbOne "http://example.com"
    ⟨[⟨1, "http://example.com", "abc", 0, none, 1⟩],
     [⟨2, 1, 7, none, none, some "a.com"⟩], 2, 3⟩ (by decide)

/-- Claim C4: in every reachable store state the short codes of the link
rows are pairwise distinct, deactivated rows included; and shorten with a
non-empty custom code a row already carries fails with the 400 conflict
answer and leaves the store exactly as it was, creating no second row. -/
theorem short_code_unique_and_conflict :
    (∀ db, Reachable db → Uniq db) ∧
    (∀ db inp gen fuel base now code, inp.custom_code = some code →
      code.isEmpty = false → codeExists db code = true →
      shorten_url inp gen fuel base now db =
        some (.badRequest "Custom short code already exists", db)) := by
  constructor
  · exact fun db h => reachable_uniq h
  · intro db inp gen fuel base now code hc he hx
    unfold shorten_url
    rw [hc]
    dsimp only
    rw [if_neg (by simp [he]), if_pos hx]

/-- Witness for claim C4: taking the code of the existing link as a custom
alias is refused and the store keeps its single row. -/
theorem short_code_unique_and_conflict_witness :
    shorten_url ⟨"http://other.com", some "abc", none⟩ (fun _ => "x") 1
        "http://sh" 0 dbOne =
      some (.badRequest "Custom short code already exists", dbOne) :=
  short_code_unique_and_conflict.2 dbOne ⟨"http://other.com", some "abc", none⟩
    (fun _ => "x") 1 "http://sh" 0 "abc" rfl (by decide) (by decide)

/-- Claim C3: shorten followed by redirect on the returned short code,
resolved at a time at which the fresh link has not expired (it is created
active), yields the stored destination string unchanged. -/
theorem shorten_redirect_roundtrip (inp : ShortenInput) (gen : Nat → String)
    (fuel : Nat) (base : String) (now now2 : Nat) (ua ip ref : Option String)
    (db : DB) (resp : URLResponse) (db2 : DB)
    (h : shorten_url inp gen fuel base now db = some (.created resp, db2))
    (he : expiryTriggered now2 resp.expires_at = false) :
    (redirect_url resp.short_code now2 ua ip ref db2).1 = .redirect inp.url := by
  rcases shorten_url_inv h with ⟨hbad, _⟩ | ⟨code, hfree, hout⟩
  · simp at hbad
  · simp only [createAndRespond, Prod.mk.injEq, ShortenResult.created.injEq] at hout
    obtain ⟨h1, h2⟩ := hout
    subst h1
    subst h2
    dsimp only
    dsimp only at he
    have hfind : findByCode
        (DB.mk
          (db.urls ++
            [⟨db.nextUrlId, inp.url, code, now, expirationOf now inp.expires_in_days, 1⟩])
          db.analytics (db.nextUrlId + 1) db.nextAnalyticsId) code =
        some ⟨db.nextUrlId, inp.url, code, now, expirationOf now inp.expires_in_days, 1⟩ := by
      unfold findByCode
      exact findByCode_append_fresh _ hfree rfl
    rw [redirect_url_success hfind (by simp) (by simpa using he)]

/-- Witness for claim C3: the round trip on a concrete destination through
a fresh store. -/
theorem shorten_redirect_roundtrip_witness :
    (redirect_url "zen" 1 none none none
      ⟨[⟨1, "https://www.python.org/", "zen", 0, none, 1⟩], [], 2, 1⟩).1 =
      .redirect "https://www.python.org/" :=
  shorten_redirect_roundtrip ⟨"https://www.python.org/", some "zen", none⟩
    (fun _ => "x") 1 "http://sh" 0 1 none none none emptyDB
    ⟨1, "https://www.python.org/", "zen", "http://sh/zen", 0, none, true⟩
    ⟨[⟨1, "https://www.python.org/", "zen", 0, none, 1⟩], [], 2, 1⟩
    (by decide) (by decide)

theorem findFreeCodeAux_const_saturated :
    ∀ fuel i, findFreeCodeAux dbSat (fun _ => "aaaaaa") fuel i = none := by
  intro fuel
  induction fuel with
  | zero => intro i; rfl
  | succ n ih =>
    intro i
    unfold findFreeCodeAux
    rw [if_pos (by decide)]
    exact ih (i + 1)

/-- Counterexample for claim C8: on a store carrying the only code a
constant candidate stream ever proposes, the generation loop of shorten
never exits, however many iterations it is allowed — the code imposes no
retry cap and has no Exhausted failure, so a saturated code space loops
forever instead of terminating. -/
theorem shorten_retry_unbounded_counterexample :
    ¬ ∃ fuel out, shorten_url ⟨"http://example.com", none, none⟩
        (fun _ => "aaaaaa") fuel "http://sh" 0 dbSat = some out := by
  rintro ⟨fuel, out, h⟩
  unfold shorten_url at h
  dsimp only at h
  rw [show findFreeCode dbSat (fun _ => "aaaaaa") fuel = none from
    findFreeCodeAux_const_saturated fuel 0] at h
  exact absurd h (by simp)

/-- Claim C8 amended: the generate-and-retry loop of shorten has no retry
cap and no Exhausted failure: a run of the loop returns a code exactly if
it is one of the candidates of the stream and no existing row carries it;
whenever the stream offers some free candidate a sufficient iteration count
finds one; and if no candidate within the allowed iterations is free the
loop is still running and shorten produces no outcome at all. -/
theorem shorten_retry_loop_characterization :
    (∀ (db : DB) (gen : Nat → String) (fuel : Nat) (c : String),
      findFreeCode db gen fuel = some c →
      codeExists db c = false ∧ ∃ j, c = gen j) ∧
    (∀ (db : DB) (gen : Nat → String) (n : Nat), codeExists db (gen n) = false →
      ∃ fuel c, findFreeCode db gen fuel = some c ∧ codeExists db c = false) ∧
    (∀ inp gen fuel base now db, inp.custom_code = none →
      findFreeCode db gen fuel = none →
      shorten_url inp gen fuel base now db = none) := by
  refine ⟨fun db gen fuel c h => findFreeCode_some h,
    fun db gen n h => findFreeCode_of_free h, ?_⟩
  intro inp gen fuel base now db hc hg
  unfold shorten_url
  rw [hc]
  dsimp only
  rw [hg]

/-- Witness for claim C8: a free candidate stream makes the loop exit on a
concrete store. -/
theorem shorten_retry_loop_characterization_witness :
    ∃ fuel c, findFreeCode dbOne (fun _ => "zzz") fuel = some c ∧
      codeExists dbOne c = false :=
  shorten_retry_loop_characterization.2.1 dbOne (fun _ => "zzz") 0 (by decide)

/-- Counterexample for claim C5: the destination is never validated. The
string "not a url" has no http or https scheme, so the spec validator
rejects it, yet shorten accepts it, creates the row, and stores it
verbatim instead of failing InvalidInput before any record is created. -/
theorem destination_not_validated_counterexample :
    is_valid_destination "not a url" = false ∧
    shorten_url ⟨"not a url", some "xyz", none⟩ (fun _ => "q") 1 "http://sh" 0 emptyDB =
      some (.created ⟨1, "not a url", "xyz", "http://sh/xyz", 0, none, true⟩,
            ⟨[⟨1, "not a url", "xyz", 0, none, 1⟩], [], 2, 1⟩) := by
  refine ⟨by decide, by decide⟩

/-- Claim C5 amended: shorten performs no validation of the destination at
all — every destination string, whether or not the spec URL grammar
accepts it, is accepted and stored verbatim whenever the requested custom
code is non-empty and free; no InvalidInput failure on account of the
destination exists. -/
theorem destination_accepted_verbatim (dest code : String) (ed : Option Nat)
    (gen : Nat → String) (fuel : Nat) (base : String) (now : Nat) (db : DB)
    (hne : code.isEmpty = false) (hfree : codeExists db code = false) :
    shorten_url ⟨dest, some code, ed⟩ gen fuel base now db =
      some (.created ⟨db.nextUrlId, dest, code, base ++ "/" ++ code, now,
              expirationOf now ed, true⟩,
            DB.mk (db.urls ++ [⟨db.nextUrlId, dest, code, now, expirationOf now ed, 1⟩])
              db.analytics (db.nextUrlId + 1) db.nextAnalyticsId) := by
  unfold shorten_url
  dsimp only
  rw [if_neg (by simp [hne]), if_neg (by simp [hfree])]
  rfl

/-- Witness for claim C5 amended: a destination with no scheme at all is
accepted on a fresh store. -/
theorem destination_accepted_verbatim_witness :
    shorten_url ⟨"just some words", some "w", none⟩ (fun _ => "q") 1 "http://sh" 3 emptyDB =
      some (.created ⟨1, "just some words", "w", "http://sh/w", 3, none, true⟩,
            DB.mk [⟨1, "just some words", "w", 3, none, 1⟩] [] 2 1) :=
  destination_accepted_verbatim "just some words" "w" none (fun _ => "q") 1
    "http://sh" 3 emptyDB (by decide) (by decide)

/-- Counterexample for claim C9: on a store whose single link has exactly
one visit with an absent referrer, the spec aggregation would report the
"Direct" placeholder with count one, but the analytics payload carries the
raw entry with the referrer still absent — no occurrence mapping keyed by
referrer and no "Direct" substitution is computed by get_analytics. -/
theorem stats_no_direct_placeholder_counterexample :
    referrerCount dbVisited.analytics "Direct" = 1 ∧
    (get_analytics "abc" "http://sh" dbVisited).map
        (fun r => r.analytics.map (fun e => e.referer)) = some [none] ∧
    some [(none : Option String)] ≠ some [some "Direct"] := by
  refine ⟨by decide, by decide, by decide⟩

/-- Claim C9 amended: get_analytics on an absent code fails NotFound; on a
present code it returns total_clicks equal to the number of visit rows of
the link together with the verbatim list of those rows, the referrer of
each reported exactly as captured (an absent referrer stays absent); no
referrer-keyed occurrence mapping and no "Direct" placeholder appears. -/
theorem stats_click_count_and_verbatim_entries (code base : String) (db : DB) :
    (findByCode db code = none → get_analytics code base db = none) ∧
    (∀ u, findByCode db code = some u →
      ∃ resp, get_analytics code base db = some resp ∧
        resp.total_clicks = db.analytics.countP (fun a => a.url_id == u.id) ∧
        resp.analytics = (db.analytics.filter (fun a => a.url_id == u.id)).map
          (fun a => ⟨a.visited_at, a.user_agent, a.ip_address, a.referer⟩) ∧
        resp.analytics.map (fun e => e.referer) =
          (db.analytics.filter (fun a => a.url_id == u.id)).map (fun a => a.referer)) := by
  constructor
  · intro h
    unfold get_analytics
    rw [h]
  · intro u h
    unfold get_analytics
    rw [h]
    dsimp only
    refine ⟨_, rfl, ?_, rfl, ?_⟩
    · exact (List.countP_eq_length_filter _ _).symm
    · rw [List.map_map]
      rfl

/-- Witness for claim C9 amended: evaluated on the store with one link and
one direct visit. -/
theorem stats_click_count_and_verbatim_entries_witness :
    ∃ resp, get_analytics "abc" "http://sh" dbVisited = some resp ∧
      resp.total_clicks = dbVisited.analytics.countP (fun a => a.url_id == 1) ∧
      resp.analytics = (dbVisited.analytics.filter (fun a => a.url_id == 1)).map
        (fun a => ⟨a.visited_at, a.user_agent, a.ip_address, a.referer⟩) ∧
      resp.analytics.map (fun e => e.referer) =
        (dbVisited.analytics.filter (fun a => a.url_id == 1)).map (fun a => a.referer) :=
  (stats_click_count_and_verbatim_entries "abc" "http://sh" dbVisited).2
    ⟨1, "http://example.com", "abc", 0, none, 1⟩ (by decide)

theorem pyAlnumChar_not_dash {c : Char} (h : pyAlnumChar c = true) :
    (c == '-' || c == '_') = false := by
  unfold pyAlnumChar at h
  rcases eq_or_ne c '-' with rfl | hd
  · revert h; decide
  · rcases eq_or_ne c '_' with rfl | hu
    · revert h; decide
    · simp [hd, hu]

theorem claimAliasChar_of_dash {c : Char} (h : (c == '-' || c == '_') = true) :
    claimAliasChar c = true := by
  have h2 : (c == '-') = true ∨ (c == '_') = true := by simpa using h
  unfold claimAliasChar
  rcases h2 with h1 | h1 <;> simp [h1]

theorem claimAliasChar_not_dash {c : Char} (hg : (c == '-' || c == '_') = false) :
    claimAliasChar c = pyAlnumChar c := by
  have h1 : (c == '-') = false := by
    cases h : c == '-'
    · rfl
    · rw [h] at hg; simp at hg
  have h2 : (c == '_') = false := by
    cases h : c == '_'
    · rfl
    · rw [h] at hg; simp at hg
  unfold claimAliasChar pyAlnumChar
  rw [h1, h2]
  simp

theorem strip_isalnum_iff (l : List Char) :
    ((!(l.filter (fun c => !(c == '-' || c == '_'))).isEmpty &&
      (l.filter (fun c => !(c == '-' || c == '_'))).all pyAlnumChar) = true) ↔
    (l.all claimAliasChar = true ∧ l.any pyAlnumChar = true) := by
  rw [Bool.and_eq_true, Bool.not_eq_true']
  constructor
  · rintro ⟨h1, h2⟩
    have hmem : ∀ c ∈ l, (c == '-' || c == '_') = false → pyAlnumChar c = true := by
      intro c hc hg
      exact List.all_eq_true.mp h2 c (List.mem_filter.mpr ⟨hc, by simp [hg]⟩)
    have hne : l.filter (fun c => !(c == '-' || c == '_')) ≠ [] := by simpa using h1
    obtain ⟨c, hcf⟩ := List.exists_mem_of_ne_nil _ hne
    obtain ⟨hcl, hcg⟩ := List.mem_filter.mp hcf
    have hcg2 : (c == '-' || c == '_') = false := by simpa using hcg
    refine ⟨List.all_eq_true.mpr ?_, List.any_eq_true.mpr ⟨c, hcl, hmem c hcl hcg2⟩⟩
    intro x hx
    by_cases hg : (x == '-' || x == '_') = true
    · exact claimAliasChar_of_dash hg
    · rw [claimAliasChar_not_dash (by simpa using hg)]
      exact hmem x hx (by simpa using hg)
  · rintro ⟨h1, h2⟩
    obtain ⟨c, hc, hca⟩ := List.any_eq_true.mp h2
    have hcg := pyAlnumChar_not_dash hca
    constructor
    · have hmf : c ∈ l.filter (fun c => !(c == '-' || c == '_')) :=
        List.mem_filter.mpr ⟨hc, by simp [hcg]⟩
      have hne : l.filter (fun c => !(c == '-' || c == '_')) ≠ [] := by
        intro hnil
        rw [hnil] at hmf
        cases hmf
      simpa using hne
    · rw [List.all_eq_true]
      intro x hxf
      obtain ⟨hxl, hxg⟩ := List.mem_filter.mp hxf
      have hxg2 : (x == '-' || x == '_') = false := by simpa using hxg
      have hcx := List.all_eq_true.mp h1 x hxl
      rw [claimAliasChar_not_dash hxg2] at hcx
      exact hcx

theorem isEmpty_iff_toList (v : String) : v.isEmpty = true ↔ v.toList = [] := by
  rw [String.isEmpty_iff]
  constructor
  · intro h; rw [h]; rfl
  · intro h
    cases v with
    | mk d => exact congrArg String.mk h

theorem validate_custom_alias_iff (v : String) :
    validate_custom_alias v = true ↔
      (v.toList = [] ∨
        (v.toList.all claimAliasChar = true ∧ v.toList.any pyAlnumChar = true ∧
          reservedAliases.contains (pyLower v) = false)) := by
  unfold validate_custom_alias
  by_cases hv : v.isEmpty = true
  · rw [if_neg (by simp [hv])]
    have htl := (isEmpty_iff_toList v).mp hv
    constructor
    · intro _
      exact Or.inl htl
    · intro _
      rfl
  · have hvl : v.toList ≠ [] := fun h => hv ((isEmpty_iff_toList v).mpr h)
    have hvf : v.isEmpty = false := by
      cases h : v.isEmpty
      · rfl
      · exact absurd h hv
    rw [if_pos (by rw [hvf]; rfl)]
    have hb : pyIsalnum (pyStripDashUnderscore v) =
        (!(v.toList.filter (fun c => !(c == '-' || c == '_'))).isEmpty &&
          (v.toList.filter (fun c => !(c == '-' || c == '_'))).all pyAlnumChar) := rfl
    by_cases hi : pyIsalnum (pyStripDashUnderscore v) = true
    · rw [if_neg (by rw [hi]; simp)]
      obtain ⟨hall, hany⟩ := (strip_isalnum_iff v.toList).mp (hb ▸ hi)
      by_cases hr : reservedAliases.contains (pyLower v) = true
      · rw [if_pos hr]
        constructor
        · intro h; cases h
        · rintro (h | ⟨_, _, hcr⟩)
          · exact absurd h hvl
          · rw [hr] at hcr; cases hcr
      · have hrf : reservedAliases.contains (pyLower v) = false := by
          cases h : reservedAliases.contains (pyLower v)
          · rfl
          · exact absurd h hr
        rw [if_neg hr]
        constructor
        · intro _
          exact Or.inr ⟨hall, hany, hrf⟩
        · intro _
          rfl
    · have hif : pyIsalnum (pyStripDashUnderscore v) = false := by
        cases h : pyIsalnum (pyStripDashUnderscore v)
        · rfl
        · exact absurd h hi
      rw [if_pos (by rw [hif]; rfl)]
      constructor
      · intro h; cases h
      · rintro (h | ⟨hall, hany, _⟩)
        · exact absurd h hvl
        · exact absurd (hb ▸ (strip_isalnum_iff v.toList).mpr ⟨hall, hany⟩) hi

/-- Counterexample for claim C6: the alias consisting of a single hyphen is
composed solely of the allowed characters, has length at most 50 and is
not reserved, yet the validator rejects it — removing hyphens and
underscores leaves the empty string, which Python isalnum rejects, so not
every string over the allowed character set passes the charset check. -/
theorem alias_hyphen_rejected_counterexample :
    ("-" : String).length ≤ 50 ∧ ("-" : String).toList.all claimAliasChar = true ∧
    reservedAliases.contains (pyLower "-") = false ∧
    validate_custom_alias "-" = false ∧ acceptAlias "-" = false := by
  exact ⟨by decide, by decide, by decide, by decide, by decide⟩

/-- Claim C6 amended: the composite alias validation (the length bound of
the request model together with validate_custom_alias) accepts exactly the
strings of length at most 50 that are empty or else consist solely of
letters, digits, hyphens and underscores with at least one letter or digit
(an alias of hyphens and underscores alone is rejected, because removing
them leaves an empty string, which Python isalnum rejects) and are not
reserved case-insensitively; the reserved alias "shorten" always fails,
regardless of availability — the validator consults no store. -/
theorem alias_validation_characterization :
    (∀ v : String, acceptAlias v = true ↔
      (v.length ≤ 50 ∧ (v.toList = [] ∨
        (v.toList.all claimAliasChar = true ∧ v.toList.any pyAlnumChar = true ∧
          reservedAliases.contains (pyLower v) = false)))) ∧
    validate_custom_alias "shorten" = false ∧ acceptAlias "shorten" = false := by
  refine ⟨?_, by decide, by decide⟩
  intro v
  unfold acceptAlias
  rw [Bool.and_eq_true]
  constructor
  · rintro ⟨h1, h2⟩
    exact ⟨of_decide_eq_true h1, (validate_custom_alias_iff v).mp h2⟩
  · rintro ⟨h1, h2⟩
    exact ⟨decide_eq_true h1, (validate_custom_alias_iff v).mpr h2⟩

/-- Witness for claim C6 amended: a well-formed alias is accepted. -/
theorem alias_validation_characterization_witness :
    acceptAlias "my-alias_1" = true :=
  (alias_validation_characterization.1 "my-alias_1").mpr
    ⟨by decide, Or.inr ⟨by decide, by decide, by decide⟩⟩

end UrlShortener
